import Mathlib

/-!
# Verification of the product-catalog application

Shallow embedding of the product-catalog web application:
* the backend Express route handlers over products
  (`src/backend/routes/products.js`), modelled as pure functions from a
  product store (a list of documents) to an HTTP-level result and the
  resulting store;
* the frontend mock product service and the client page logic
  (`src/frontend/src/services/product-service.ts`), including the
  conjunctive filter pipeline;
* the demo authentication context (`src/frontend/src/contexts/auth-context.tsx`).

Machine integers do not overflow in any of the modelled code paths
(timestamps, prices); JS numbers used by the filter logic are modelled as
rationals, which is exact for every comparison the code performs.
-/

namespace Backend

/-- A backend product document.  Mirrors the fields destructured and stored by
`src/backend/routes/products.js` (name, description, price, imageUrl,
category, inStock, createdBy) plus the generated `id` and the two schema
timestamps.  Document ids are generated unique identifiers; we model them as
naturals handed out by a counter. -/
structure Product where
  id : Nat
  name : String
  description : String
  price : ℚ
  imageUrl : String
  category : String
  inStock : Bool
  createdBy : String
  createdAt : Nat
  updatedAt : Nat
deriving DecidableEq, Repr

/-- A request id as it arrives in `req.params.id`.  The Mongo driver either
casts the path string to a document id or raises a `CastError` with
`kind === 'ObjectId'`; which strings cast successfully is driver behaviour
outside `src/`, so we abstract a request id to either a valid id or a
malformed one. -/
inductive ReqId where
  | valid (n : Nat)
  | malformed
deriving DecidableEq, Repr

/-- The database-level error the handlers distinguish in their catch blocks:
`error.kind === 'ObjectId'` (a cast error from a malformed id). -/
inductive DbErr where
  | castError
deriving DecidableEq, Repr

/-- Model of `Product.findById`: raises a cast error on a malformed id, otherwise
returns the document with that id (if any). -/
def dbFindById (store : List Product) (rid : ReqId) :
    Except DbErr (Option Product) :=
  match rid with
  | .malformed => .error .castError
  | .valid n => .ok (store.find? (fun p => p.id == n))

/-- The field update applied by `Product.findByIdAndUpdate` in the PUT
handler: replaces name, description, price, imageUrl, category, inStock and
refreshes `updatedAt` to `Date.now()`; `createdBy`, `id` and `createdAt` are
not among the updated fields. -/
structure UpdateInput where
  name : String
  description : String
  price : ℚ
  imageUrl : String
  category : String
  inStock : Bool
deriving DecidableEq, Repr

def applyUpdate (inp : UpdateInput) (now : Nat) (p : Product) : Product :=
  { p with
    name := inp.name
    description := inp.description
    price := inp.price
    imageUrl := inp.imageUrl
    category := inp.category
    inStock := inp.inStock
    updatedAt := now }

/-- Model of `Product.findByIdAndUpdate(id, fields, new:true)` on the store: update
the document whose id matches (ids are unique, so this is the first match). -/
def dbFindByIdAndUpdate (store : List Product) (n : Nat) (inp : UpdateInput)
    (now : Nat) : List Product :=
  match store with
  | [] => []
  | p :: rest =>
    if p.id = n then applyUpdate inp now p :: rest
    else p :: dbFindByIdAndUpdate rest n inp now

/-- Model of `product.deleteOne()` after a `findById`: remove the document with that
id (the first match, ids being unique). -/
def dbDeleteById (store : List Product) (n : Nat) : List Product :=
  store.eraseP (fun p => p.id == n)

/-- Ordering used by the listing endpoints: newer (larger `createdAt`)
first. -/
def newerFirst (a b : Product) : Prop := b.createdAt ≤ a.createdAt

instance : DecidableRel newerFirst := fun a b => Nat.decLe b.createdAt a.createdAt

instance : IsTotal Product newerFirst := ⟨fun a b => Nat.le_total b.createdAt a.createdAt⟩

instance : IsTrans Product newerFirst := ⟨fun _ _ _ h1 h2 => le_trans h2 h1⟩

/-- The document store's `.sort({ createdAt: -1 })`: results ordered by
creation time, most recent first (tie order is unspecified by the store;
insertion sort is one conforming model). -/
def sortByCreatedAtDesc (l : List Product) : List Product :=
  l.insertionSort newerFirst

/-- Result of `GET /api/products/:id`. -/
inductive GetResult where
  | ok (product : Product)
  | notFound
  | serverError
deriving DecidableEq, Repr

/-- Handler `router.get('/:id')`: `findById`; missing document → 404; a cast error in
the catch block (`error.kind === 'ObjectId'`) → 404; other failures → 500. -/
def getByIdHandler (store : List Product) (rid : ReqId) : GetResult :=
  match dbFindById store rid with
  | .error .castError => .notFound
  | .ok none => .notFound
  | .ok (some p) => .ok p

/-- Handler `router.get('/')`: all products, sorted by `createdAt` descending. -/
def getAllHandler (store : List Product) : List Product :=
  sortByCreatedAtDesc store

/-- Handler `router.get('/user/me')`: the caller's products, sorted by `createdAt`
descending. -/
def getMineHandler (store : List Product) (caller : String) : List Product :=
  sortByCreatedAtDesc (store.filter (fun p => p.createdBy == caller))

/-- Result of `PUT /api/products/:id`. -/
inductive PutResult where
  | ok (product : Product)
  | notFound
  | forbidden
  | serverError
deriving DecidableEq, Repr

/-- Handler `router.put('/:id')`: `findById` (cast error → 404); missing → 404;
`createdBy.toString() !== req.user.id` → 403; otherwise
`findByIdAndUpdate` with the six fields and `updatedAt: Date.now()`,
returning the updated document.  Returns the HTTP-level result together with
the store after the request. -/
def putHandler (store : List Product) (caller : String) (rid : ReqId)
    (inp : UpdateInput) (now : Nat) : PutResult × List Product :=
  match dbFindById store rid with
  | .error .castError => (.notFound, store)
  | .ok none => (.notFound, store)
  | .ok (some p) =>
    if p.createdBy ≠ caller then (.forbidden, store)
    else
      match rid with
      | .malformed => (.serverError, store)
      | .valid n =>
        (.ok (applyUpdate inp now p), dbFindByIdAndUpdate store n inp now)

/-- Result of `DELETE /api/products/:id`. -/
inductive DeleteResult where
  | ok
  | notFound
  | forbidden
  | serverError
deriving DecidableEq, Repr

/-- Handler `router.delete('/:id')`: `findById` (cast error → 404); missing → 404;
non-owner → 403; otherwise `deleteOne`. -/
def deleteHandler (store : List Product) (caller : String) (rid : ReqId) :
    DeleteResult × List Product :=
  match dbFindById store rid with
  | .error .castError => (.notFound, store)
  | .ok none => (.notFound, store)
  | .ok (some p) =>
    if p.createdBy ≠ caller then (.forbidden, store)
    else
      match rid with
      | .malformed => (.serverError, store)
      | .valid n => (.ok, dbDeleteById store n)

/-- The request body of `POST /api/products`. -/
structure CreateInput where
  name : String
  description : String
  price : ℚ
  imageUrl : String
  category : String
  inStock : Bool
deriving DecidableEq, Repr

/-- Backend state: the product collection plus the id generator.  Generated
ids are unique; we model the generator as a counter, with the invariant that
every stored id is below the counter. -/
structure BState where
  store : List Product
  nextId : Nat
deriving Repr

/-- Store well-formedness maintained by the id generator: every stored id
was allocated below the counter, and the generated ids are unique. -/
def BState.Inv (s : BState) : Prop :=
  (∀ p ∈ s.store, p.id < s.nextId) ∧ (s.store.map Product.id).Nodup

/-- Modelled from the spec: the Product schema (`models/Product.js`, not
under `src/`) sets both timestamps at insert ("`createdAt` set at insert,
`updatedAt` refreshed on every update"; "timestamps set" on create), so a
freshly saved document has `createdAt == updatedAt == now`. -/
def newProductDoc (s : BState) (caller : String) (inp : CreateInput)
    (now : Nat) : Product :=
  { id := s.nextId
    name := inp.name
    description := inp.description
    price := inp.price
    imageUrl := inp.imageUrl
    category := inp.category
    inStock := inp.inStock
    createdBy := caller
    createdAt := now
    updatedAt := now }

/-- Handler `router.post('/')`: build a new document from the body with
`createdBy: req.user.id`, save it, and return it with status 201. -/
def createHandler (s : BState) (caller : String) (inp : CreateInput)
    (now : Nat) : Product × BState :=
  let p := newProductDoc s caller inp now
  (p, { store := s.store ++ [p], nextId := s.nextId + 1 })

/-- A mutating request against the product API: the three handlers that can
change the store. -/
inductive Op where
  | create (caller : String) (inp : CreateInput) (now : Nat)
  | update (caller : String) (rid : ReqId) (inp : UpdateInput) (now : Nat)
  | del (caller : String) (rid : ReqId)

/-- Effect of one request on the backend state. -/
def stepOp (s : BState) : Op → BState
  | .create caller inp now => (createHandler s caller inp now).2
  | .update caller rid inp now =>
    { s with store := (putHandler s.store caller rid inp now).2 }
  | .del caller rid =>
    { s with store := (deleteHandler s.store caller rid).2 }

/-- Effect of a sequence of requests. -/
def runOps (s : BState) : List Op → BState
  | [] => s
  | o :: os => runOps (stepOp s o) os

end Backend

namespace Frontend

/-- A frontend mock product (`@/types` `Product`): the demo schema has
`rating` instead of the backend's `imageUrl`/`inStock`; timestamps are ISO
strings. -/
structure MProduct where
  id : String
  name : String
  description : String
  category : String
  price : ℚ
  rating : ℚ
  createdAt : String
  updatedAt : String
deriving DecidableEq, Repr

/-- Type `ProductFormData` from the frontend types module: the fields a create/update form submits. -/
structure ProductFormData where
  name : String
  description : String
  category : String
  price : ℚ
  rating : ℚ
deriving DecidableEq, Repr

/-- Type `FilterOptions` from the frontend types module: nullable category/price/rating bounds plus a
search string. -/
structure FilterOptions where
  category : Option String
  minPrice : Option ℚ
  maxPrice : Option ℚ
  minRating : Option ℚ
  search : String
deriving DecidableEq, Repr

/-- JavaScript `a || b` on numbers: `a` is falsy exactly when it is `0`
(`NaN` does not arise from the modelled values). -/
def jsOrQ (a b : ℚ) : ℚ := if a = 0 then b else a

/-- Lowercasing `toLowerCase()` of a string, as its character list (the filter compares
lowered characters only). -/
def lowerChars (s : String) : List Char := s.toList.map Char.toLower

/-- JavaScript `hay.includes(needle)`: contiguous substring test. -/
def strIncludes (hay needle : List Char) : Bool := decide (needle <:+: hay)

/-- The filter `useEffect` of `ProductPage`: starting from the full product
list, conditionally apply each criterion in sequence.  JS truthiness is kept:
`if (filters.category)` skips the category filter for `null` *and* for the
empty string; `filters.maxPrice || Infinity` turns a zero upper bound into no
bound; `filters.minPrice || 0` and `filters.minRating || 0` are identities;
`if (filters.search)` skips the search filter for the empty string. -/
def applyFilters (products : List MProduct) (f : FilterOptions) :
    List MProduct :=
  let r := products
  let r := match f.category with
    | none => r
    | some c => if c = "" then r else r.filter (fun p => p.category == c)
  let r := match f.minPrice with
    | none => r
    | some m => r.filter (fun p => decide (jsOrQ m 0 ≤ p.price))
  let r := match f.maxPrice with
    | none => r
    | some m => if m = 0 then r else r.filter (fun p => decide (p.price ≤ m))
  let r := match f.minRating with
    | none => r
    | some m => r.filter (fun p => decide (jsOrQ m 0 ≤ p.rating))
  let r :=
    if f.search = "" then r
    else
      let term := lowerChars f.search
      r.filter (fun p =>
        strIncludes (lowerChars p.name) term ||
        strIncludes (lowerChars p.description) term)
  r

/-- The conjunctive criteria the filter pipeline actually enforces: category
equal when set and non-empty, price at least `minPrice` when set, price at
most `maxPrice` when set and non-zero, rating at least `minRating` when set,
and a case-insensitive substring match against name or description when the
search term is non-empty. -/
def matchesActiveFilters (f : FilterOptions) (p : MProduct) : Bool :=
  (match f.category with
    | none => true
    | some c => c = "" || p.category == c) &&
  (match f.minPrice with
    | none => true
    | some m => decide (m ≤ p.price)) &&
  (match f.maxPrice with
    | none => true
    | some m => decide (m = 0) || decide (p.price ≤ m)) &&
  (match f.minRating with
    | none => true
    | some m => decide (m ≤ p.rating)) &&
  (f.search = "" ||
    strIncludes (lowerChars p.name) (lowerChars f.search) ||
    strIncludes (lowerChars p.description) (lowerChars f.search))

/-- The criteria as the claim words them: every *set* (non-null) bound
constrains — in particular a set `maxPrice` always imposes `price ≤ maxPrice`
and a set category always requires equality.  Stated for comparison with
`matchesActiveFilters` / `applyFilters`. -/
def claimCriteria (f : FilterOptions) (p : MProduct) : Bool :=
  (match f.category with
    | none => true
    | some c => p.category == c) &&
  (match f.minPrice with
    | none => true
    | some m => decide (m ≤ p.price)) &&
  (match f.maxPrice with
    | none => true
    | some m => decide (p.price ≤ m)) &&
  (match f.minRating with
    | none => true
    | some m => decide (m ≤ p.rating)) &&
  (f.search = "" ||
    strIncludes (lowerChars p.name) (lowerChars f.search) ||
    strIncludes (lowerChars p.description) (lowerChars f.search))

/-- The update applied by the mock service's `updateProduct`: spread of the
existing product, then the form data, then a fresh `updatedAt` — `id` and
`createdAt` are kept. -/
def applyForm (d : ProductFormData) (now : String) (p : MProduct) : MProduct :=
  { p with
    name := d.name
    description := d.description
    category := d.category
    price := d.price
    rating := d.rating
    updatedAt := now }

/-- Function `updateProduct` of the mock service: `findIndex` on id; if found, replace
that entry and resolve the updated product; otherwise reject. -/
def svcUpdateProduct : List MProduct → String → ProductFormData → String →
    Except Unit (MProduct × List MProduct)
  | [], _, _, _ => .error ()
  | p :: rest, i, d, now =>
    if p.id = i then .ok (applyForm d now p, applyForm d now p :: rest)
    else
      match svcUpdateProduct rest i d now with
      | .ok (u, rest') => .ok (u, p :: rest')
      | .error e => .error e

/-- Function `deleteProduct` of the mock service: `findIndex` on id; if found,
`splice` that single entry out and resolve `true`; otherwise reject. -/
def svcDeleteProduct : List MProduct → String →
    Except Unit (Bool × List MProduct)
  | [], _ => .error ()
  | p :: rest, i =>
    if p.id = i then .ok (true, rest)
    else
      match svcDeleteProduct rest i with
      | .ok (b, rest') => .ok (b, p :: rest')
      | .error e => .error e

/-- Function `createProduct` of the mock service: build a product from the form data
with a random id and fresh timestamps and push it onto the store. -/
def svcCreateProduct (store : List MProduct) (rid : String)
    (d : ProductFormData) (now : String) : MProduct × List MProduct :=
  let p : MProduct :=
    { id := rid
      name := d.name
      description := d.description
      category := d.category
      price := d.price
      rating := d.rating
      createdAt := now
      updatedAt := now }
  (p, store ++ [p])

/-- Function `handleProductSubmit` of `ProductPage`: with a current product, await
`updateProduct` and only then map the replacement over local state; without
one, await `createProduct` and only then append.  A rejection lands in the
catch block, which only raises a toast — local state is untouched.  Returns
(client product state, mock store) after the interaction. -/
def handleProductSubmit (client : List MProduct) (svcStore : List MProduct)
    (cur : Option MProduct) (d : ProductFormData) (rid : String)
    (now : String) : List MProduct × List MProduct :=
  match cur with
  | some c =>
    match svcUpdateProduct svcStore c.id d now with
    | .ok (u, store') =>
        (client.map (fun p => if p.id = c.id then u else p), store')
    | .error _ => (client, svcStore)
  | none =>
    let (np, store') := svcCreateProduct svcStore rid d now
    (client ++ [np], store')

/-- Function `confirmDelete` of `ProductPage`: with a pending id, await
`deleteProduct` and only then filter it out of local state; a rejection only
raises a toast. -/
def confirmDelete (client : List MProduct) (svcStore : List MProduct)
    (productToDelete : Option String) : List MProduct × List MProduct :=
  match productToDelete with
  | none => (client, svcStore)
  | some i =>
    match svcDeleteProduct svcStore i with
    | .ok (_, store') => (client.filter (fun p => p.id != i), store')
    | .error _ => (client, svcStore)

/-- Type `User` from the frontend types module. -/
structure User where
  id : String
  email : String
deriving DecidableEq, Repr

/-- Function `login` of the demo auth context: fabricate `{id:'1', email}` and a
token `mock_jwt_token_` + random suffix, store them, and return `true`.  No
credential record is consulted — the inputs besides `email` are unused. -/
def login (email _pw : String) (rand : String) : Bool × User × String :=
  (true, { id := "1", email := email }, "mock_jwt_token_" ++ rand)

/-- Function `signup` of the demo auth context: identical fabrication. -/
def signup (email _pw : String) (rand : String) : Bool × User × String :=
  (true, { id := "1", email := email }, "mock_jwt_token_" ++ rand)

end Frontend

/-- Concrete backend documents and inputs used by the witnesses below. -/
def docA : Backend.Product :=
  { id := 1, name := "laptop", description := "fast laptop", price := 1200,
    imageUrl := "img-a", category := "electronics", inStock := true,
    createdBy := "alice", createdAt := 100, updatedAt := 100 }

def docB : Backend.Product :=
  { id := 2, name := "chair", description := "office chair", price := 300,
    imageUrl := "img-b", category := "furniture", inStock := false,
    createdBy := "bob", createdAt := 200, updatedAt := 200 }

def updIn : Backend.UpdateInput :=
  { name := "laptop v2", description := "faster", price := 1300,
    imageUrl := "img-a2", category := "electronics", inStock := true }

def crIn : Backend.CreateInput :=
  { name := "camera", description := "sharp camera", price := 900,
    imageUrl := "img-c", category := "photo", inStock := true }

/-- Concrete frontend products, form data and filters used by the witnesses
and concrete filter scenarios below. -/
def mpA : Frontend.MProduct :=
  { id := "1", name := "Laptop", description := "Fast machine",
    category := "Electronics", price := 100, rating := 4,
    createdAt := "2023-01-01", updatedAt := "2023-01-01" }

def mpB : Frontend.MProduct :=
  { id := "2", name := "Chair", description := "Office chair",
    category := "Furniture", price := 500, rating := 5,
    createdAt := "2023-02-01", updatedAt := "2023-02-01" }

def mpC : Frontend.MProduct :=
  { id := "3", name := "Camera", description := "Sharp lens",
    category := "Photo", price := 1500, rating := 4,
    createdAt := "2023-03-01", updatedAt := "2023-03-01" }

def formD : Frontend.ProductFormData :=
  { name := "New name", description := "New desc", category := "Gadgets",
    price := 42, rating := 5 }

/-- Filter of the concrete scenario in the spec: minPrice 400, maxPrice
1000, nothing else. -/
def priceFilter : Frontend.FilterOptions :=
  { category := none, minPrice := some 400, maxPrice := some 1000,
    minRating := none, search := "" }

/-- Same filter with a search term matching nothing. -/
def priceSearchFilter : Frontend.FilterOptions :=
  { category := none, minPrice := some 400, maxPrice := some 1000,
    minRating := none, search := "xyz" }

/-- Filter with a set-but-zero upper price bound. -/
def zeroMaxFilter : Frontend.FilterOptions :=
  { category := none, minPrice := none, maxPrice := some 0,
    minRating := none, search := "" }


namespace Backend

/-- With unique document ids, `findById` on a stored product's id retrieves
exactly that product. -/
lemma find?_id_eq_some_of_nodup (store : List Product) (p : Product)
    (hu : (store.map Product.id).Nodup) (hp : p ∈ store) :
    store.find? (fun q => q.id == p.id) = some p := by
  induction store with
  | nil => cases hp
  | cons a rest ih =>
    rcases List.mem_cons.mp hp with rfl | hp2
    · exact List.find?_cons_of_pos _ (by simp)
    · have hane : ¬ ((a.id == p.id) = true) := by
        simp only [beq_iff_eq]
        intro h
        exact (List.nodup_cons.mp hu).1 (h ▸ List.mem_map_of_mem Product.id hp2)
      rw [List.find?_cons_of_neg (p := fun q => q.id == p.id) (a := a) rest hane]
      exact ih (List.nodup_cons.mp hu).2 hp2

lemma applyUpdate_id (inp : UpdateInput) (now : Nat) (p : Product) :
    (applyUpdate inp now p).id = p.id := rfl

lemma applyUpdate_createdBy (inp : UpdateInput) (now : Nat) (p : Product) :
    (applyUpdate inp now p).createdBy = p.createdBy := rfl

/-- Every document in an updated store has the id and owner of a document of
the original store. -/
lemma mem_dbFindByIdAndUpdate (store : List Product) (n : Nat)
    (inp : UpdateInput) (now : Nat) (q : Product)
    (hq : q ∈ dbFindByIdAndUpdate store n inp now) :
    ∃ p ∈ store, q.id = p.id ∧ q.createdBy = p.createdBy := by
  induction store with
  | nil => simp [dbFindByIdAndUpdate] at hq
  | cons a rest ih =>
    by_cases h : a.id = n
    · rw [dbFindByIdAndUpdate, if_pos h] at hq
      rcases List.mem_cons.mp hq with rfl | hq2
      · exact ⟨a, List.mem_cons_self a rest, rfl, rfl⟩
      · exact ⟨q, List.mem_cons_of_mem a hq2, rfl, rfl⟩
    · rw [dbFindByIdAndUpdate, if_neg h] at hq
      rcases List.mem_cons.mp hq with rfl | hq2
      · exact ⟨q, List.mem_cons_self q rest, rfl, rfl⟩
      · obtain ⟨p, hp, hid, hcb⟩ := ih hq2
        exact ⟨p, List.mem_cons_of_mem a hp, hid, hcb⟩

end Backend

namespace Frontend

/-- When no stored product has the requested id, the mock `updateProduct`
rejects. -/
lemma svcUpdateProduct_eq_error (store : List MProduct) (i : String)
    (d : ProductFormData) (now : String) (h : ∀ y ∈ store, y.id ≠ i) :
    svcUpdateProduct store i d now = .error () := by
  induction store with
  | nil => rfl
  | cons a rest ih =>
    have ha : a.id ≠ i := h a (List.mem_cons_self a rest)
    rw [svcUpdateProduct, if_neg ha,
      ih (fun y hy => h y (List.mem_cons_of_mem a hy))]

/-- When no stored product has the requested id, the mock `deleteProduct`
rejects. -/
lemma svcDeleteProduct_eq_error (store : List MProduct) (i : String)
    (h : ∀ y ∈ store, y.id ≠ i) :
    svcDeleteProduct store i = .error () := by
  induction store with
  | nil => rfl
  | cons a rest ih =>
    have ha : a.id ≠ i := h a (List.mem_cons_self a rest)
    rw [svcDeleteProduct, if_neg ha,
      ih (fun y hy => h y (List.mem_cons_of_mem a hy))]

/-- On the first product carrying the requested id, the mock `deleteProduct`
splices out exactly that entry and resolves `true`. -/
lemma svcDeleteProduct_removes_first (l₁ l₂ : List MProduct) (x : MProduct)
    (i : String) (hx : x.id = i) (h₁ : ∀ y ∈ l₁, y.id ≠ i) :
    svcDeleteProduct (l₁ ++ x :: l₂) i = .ok (true, l₁ ++ l₂) := by
  induction l₁ with
  | nil => simp [svcDeleteProduct, hx]
  | cons a rest ih =>
    have ha : a.id ≠ i := h₁ a (List.mem_cons_self a rest)
    rw [List.cons_append, svcDeleteProduct, if_neg ha,
      ih (fun y hy => h₁ y (List.mem_cons_of_mem a hy))]
    rfl

end Frontend

/-- C1: for a stored product (document ids being unique), PUT and DELETE on
its id by any authenticated caller other than its creator return Forbidden
and leave the whole store unchanged; the owner instead reaches the mutation
branch of the handler. -/
theorem C1_only_owner_mutates (store : List Backend.Product) (caller : String)
    (p : Backend.Product) (inp : Backend.UpdateInput) (now : Nat)
    (hu : (store.map Backend.Product.id).Nodup) (hp : p ∈ store) :
    (p.createdBy ≠ caller →
      Backend.putHandler store caller (.valid p.id) inp now =
        (.forbidden, store) ∧
      Backend.deleteHandler store caller (.valid p.id) =
        (.forbidden, store)) ∧
    (p.createdBy = caller →
      Backend.putHandler store caller (.valid p.id) inp now =
        (.ok (Backend.applyUpdate inp now p),
          Backend.dbFindByIdAndUpdate store p.id inp now) ∧
      Backend.deleteHandler store caller (.valid p.id) =
        (.ok, Backend.dbDeleteById store p.id)) := by
  have hfind := Backend.find?_id_eq_some_of_nodup store p hu hp
  refine ⟨fun hne => ⟨?_, ?_⟩, fun heq => ⟨?_, ?_⟩⟩
  · simp [Backend.putHandler, Backend.dbFindById, hfind, hne]
  · simp [Backend.deleteHandler, Backend.dbFindById, hfind, hne]
  · simp [Backend.putHandler, Backend.dbFindById, hfind, heq]
  · simp [Backend.deleteHandler, Backend.dbFindById, hfind, heq]

/-- Witness for C1: Bob is refused on Alice's document, Alice reaches the
mutation branch. -/
theorem C1_witness :
    Backend.putHandler [docA, docB] "bob" (.valid docA.id) updIn 300 =
      (.forbidden, [docA, docB]) ∧
    Backend.deleteHandler [docA, docB] "bob" (.valid docA.id) =
      (.forbidden, [docA, docB]) ∧
    Backend.putHandler [docA, docB] "alice" (.valid docA.id) updIn 300 =
      (.ok (Backend.applyUpdate updIn 300 docA),
        Backend.dbFindByIdAndUpdate [docA, docB] docA.id updIn 300) := by
  have h1 := C1_only_owner_mutates [docA, docB] "bob" docA updIn 300
    (by decide) (by decide)
  have h2 := C1_only_owner_mutates [docA, docB] "alice" docA updIn 300
    (by decide) (by decide)
  exact ⟨(h1.1 (by decide)).1, (h1.1 (by decide)).2, (h2.2 (by decide)).1⟩

/-- C2: getting, updating or deleting a malformed id or an id absent from
the store yields NotFound — never the 500 server error — and the mutating
handlers leave the store unchanged. -/
theorem C2_absent_or_malformed_id_yields_notFound
    (store : List Backend.Product) (caller : String)
    (inp : Backend.UpdateInput) (now : Nat) (n : Nat)
    (habs : store.find? (fun q => q.id == n) = none) :
    (Backend.getByIdHandler store .malformed = .notFound ∧
     Backend.putHandler store caller .malformed inp now = (.notFound, store) ∧
     Backend.deleteHandler store caller .malformed = (.notFound, store)) ∧
    (Backend.getByIdHandler store (.valid n) = .notFound ∧
     Backend.putHandler store caller (.valid n) inp now = (.notFound, store) ∧
     Backend.deleteHandler store caller (.valid n) = (.notFound, store)) := by
  refine ⟨⟨rfl, rfl, rfl⟩, ?_, ?_, ?_⟩
  · simp [Backend.getByIdHandler, Backend.dbFindById, habs]
  · simp [Backend.putHandler, Backend.dbFindById, habs]
  · simp [Backend.deleteHandler, Backend.dbFindById, habs]

/-- Witness for C2 on a concrete store and the absent id 99. -/
theorem C2_witness :
    (Backend.getByIdHandler [docA] .malformed = .notFound ∧
     Backend.putHandler [docA] "alice" .malformed updIn 300 =
       (.notFound, [docA]) ∧
     Backend.deleteHandler [docA] "alice" .malformed = (.notFound, [docA])) ∧
    (Backend.getByIdHandler [docA] (.valid 99) = .notFound ∧
     Backend.putHandler [docA] "alice" (.valid 99) updIn 300 =
       (.notFound, [docA]) ∧
     Backend.deleteHandler [docA] "alice" (.valid 99) =
       (.notFound, [docA])) :=
  C2_absent_or_malformed_id_yields_notFound [docA] "alice" updIn 300 99
    (by decide)

/-- C3: the list-all and list-mine endpoints return products ordered by
`createdAt` descending — along the result list the creation timestamps are
non-increasing, so a product created strictly earlier than another never
precedes it. -/
theorem C3_listings_sorted_newest_first (store : List Backend.Product)
    (caller : String) :
    (Backend.getAllHandler store).Pairwise
      (fun a b => b.createdAt ≤ a.createdAt) ∧
    (Backend.getMineHandler store caller).Pairwise
      (fun a b => b.createdAt ≤ a.createdAt) :=
  ⟨List.sorted_insertionSort Backend.newerFirst store,
   List.sorted_insertionSort Backend.newerFirst
     (store.filter (fun p => p.createdBy == caller))⟩

/-- C8: the demo client's login and signup succeed on every email/password
input, fabricating the user `id = "1"` with the given email and a mock
token; no credential record is consulted (none appears among the inputs of
either operation). -/
theorem C8_demo_auth_always_succeeds (email pw rand : String) :
    Frontend.login email pw rand =
      (true, { id := "1", email := email }, "mock_jwt_token_" ++ rand) ∧
    Frontend.signup email pw rand =
      (true, { id := "1", email := email }, "mock_jwt_token_" ++ rand) :=
  ⟨rfl, rfl⟩

/-- C9: the mock deleteProduct removes exactly the first product carrying
the given id and resolves `true`, leaving every other product in its
original relative order; on an id carried by no stored product it rejects
(and, the store being passed by value, nothing changes). -/
theorem C9_deleteProduct_frame (l₁ l₂ : List Frontend.MProduct)
    (x : Frontend.MProduct) (i : String) (hx : x.id = i)
    (h₁ : ∀ y ∈ l₁, y.id ≠ i)
    (store : List Frontend.MProduct) (habs : ∀ y ∈ store, y.id ≠ i) :
    Frontend.svcDeleteProduct (l₁ ++ x :: l₂) i = .ok (true, l₁ ++ l₂) ∧
    Frontend.svcDeleteProduct store i = .error () :=
  ⟨Frontend.svcDeleteProduct_removes_first l₁ l₂ x i hx h₁,
   Frontend.svcDeleteProduct_eq_error store i habs⟩

/-- Witness for C9: deleting id 2 removes exactly the middle product;
deleting it again from the remainder rejects. -/
theorem C9_witness :
    Frontend.svcDeleteProduct [mpA, mpB, mpC] "2" = .ok (true, [mpA, mpC]) ∧
    Frontend.svcDeleteProduct [mpA, mpC] "2" = .error () :=
  C9_deleteProduct_frame [mpA] [mpC] mpB "2" rfl (by decide) [mpA, mpC]
    (by decide)

namespace Backend

/-- With unique ids, two stored products sharing an id are the same
document. -/
lemma eq_of_mem_of_id_eq (store : List Product) (q r : Product)
    (hu : (store.map Product.id).Nodup) (hq : q ∈ store) (hr : r ∈ store)
    (h : q.id = r.id) : q = r := by
  have h1 := find?_id_eq_some_of_nodup store q hu hq
  have h2 := find?_id_eq_some_of_nodup store r hu hr
  rw [h] at h1
  exact Option.some.inj (h1.symm.trans h2)

/-- An update leaves the stored ids untouched. -/
lemma map_id_dbFindByIdAndUpdate (store : List Product) (n : Nat)
    (inp : UpdateInput) (now : Nat) :
    (dbFindByIdAndUpdate store n inp now).map Product.id =
      store.map Product.id := by
  induction store with
  | nil => rfl
  | cons a rest ih =>
    by_cases h : a.id = n
    · rw [dbFindByIdAndUpdate, if_pos h]; rfl
    · rw [dbFindByIdAndUpdate, if_neg h, List.map_cons, List.map_cons, ih]

/-- The store a PUT leaves behind is either the original store or the
updated store. -/
lemma putHandler_snd (store : List Product) (caller : String) (rid : ReqId)
    (inp : UpdateInput) (now : Nat) :
    (putHandler store caller rid inp now).2 = store ∨
    ∃ n, (putHandler store caller rid inp now).2 =
      dbFindByIdAndUpdate store n inp now := by
  cases rid with
  | malformed => exact Or.inl rfl
  | valid n =>
    cases hf : store.find? (fun p => p.id == n) with
    | none => exact Or.inl (by simp [putHandler, dbFindById, hf])
    | some p =>
      by_cases hc : p.createdBy ≠ caller
      · exact Or.inl (by simp [putHandler, dbFindById, hf, hc])
      · exact Or.inr ⟨n, by simp [putHandler, dbFindById, hf, hc]⟩

/-- The store a DELETE leaves behind is either the original store or the
store with one document erased. -/
lemma deleteHandler_snd (store : List Product) (caller : String)
    (rid : ReqId) :
    (deleteHandler store caller rid).2 = store ∨
    ∃ n, (deleteHandler store caller rid).2 = dbDeleteById store n := by
  cases rid with
  | malformed => exact Or.inl rfl
  | valid n =>
    cases hf : store.find? (fun p => p.id == n) with
    | none => exact Or.inl (by simp [deleteHandler, dbFindById, hf])
    | some p =>
      by_cases hc : p.createdBy ≠ caller
      · exact Or.inl (by simp [deleteHandler, dbFindById, hf, hc])
      · exact Or.inr ⟨n, by simp [deleteHandler, dbFindById, hf, hc]⟩

/-- One request preserves well-formedness, keeps the id counter above any
already-allocated id, and preserves the owner recorded at that id. -/
lemma stepOp_preserves (s : BState) (o : Op) (i : Nat) (c : String)
    (hInv : s.Inv) (hi : i < s.nextId)
    (hOwn : ∀ q ∈ s.store, q.id = i → q.createdBy = c) :
    (stepOp s o).Inv ∧ i < (stepOp s o).nextId ∧
      ∀ q ∈ (stepOp s o).store, q.id = i → q.createdBy = c := by
  obtain ⟨hlt, hnd⟩ := hInv
  cases o with
  | create caller inp now =>
    simp only [stepOp, createHandler]
    refine ⟨⟨fun q hq => ?_, ?_⟩, Nat.lt_succ_of_lt hi, fun q hq hqi => ?_⟩
    · rcases List.mem_append.mp hq with hq | hq
      · exact Nat.lt_succ_of_lt (hlt q hq)
      · rw [List.mem_singleton.mp hq]; exact Nat.lt_succ_self _
    · rw [List.map_append]
      simp only [List.map_cons, List.map_nil]
      rw [List.nodup_append]
      refine ⟨hnd, List.nodup_singleton _, fun a ha hb => ?_⟩
      rw [List.mem_singleton.mp hb] at ha
      obtain ⟨p, hp, hpid⟩ := List.mem_map.mp ha
      exact absurd hpid (Nat.ne_of_lt (hlt p hp))
    · rcases List.mem_append.mp hq with hq | hq
      · exact hOwn q hq hqi
      · rw [List.mem_singleton.mp hq] at hqi
        exact absurd hqi.symm (Nat.ne_of_lt hi)
  | update caller rid inp now =>
    have hsnd := putHandler_snd s.store caller rid inp now
    refine ⟨⟨fun q hq => ?_, ?_⟩, hi, fun q hq hqi => ?_⟩
    · rcases hsnd with h | ⟨n, h⟩
      · rw [stepOp] at hq; rw [h] at hq; exact hlt q hq
      · rw [stepOp] at hq; rw [h] at hq
        obtain ⟨p, hp, hid, _⟩ := mem_dbFindByIdAndUpdate _ _ _ _ _ hq
        exact hid ▸ hlt p hp
    · rcases hsnd with h | ⟨n, h⟩
      · simpa [stepOp, h] using hnd
      · simpa [stepOp, h, map_id_dbFindByIdAndUpdate] using hnd
    · rcases hsnd with h | ⟨n, h⟩
      · rw [stepOp] at hq; rw [h] at hq; exact hOwn q hq hqi
      · rw [stepOp] at hq; rw [h] at hq
        obtain ⟨p, hp, hid, hcb⟩ := mem_dbFindByIdAndUpdate _ _ _ _ _ hq
        exact hcb ▸ hOwn p hp (hid ▸ hqi)
  | del caller rid =>
    have hsnd := deleteHandler_snd s.store caller rid
    have hsub : ∀ q ∈ (stepOp s (.del caller rid)).store, q ∈ s.store := by
      intro q hq
      rcases hsnd with h | ⟨n, h⟩
      · rw [stepOp] at hq; rw [h] at hq; exact hq
      · rw [stepOp] at hq; rw [h] at hq
        exact (List.eraseP_sublist s.store).subset hq
    refine ⟨⟨fun q hq => hlt q (hsub q hq), ?_⟩, hi,
      fun q hq hqi => hOwn q (hsub q hq) hqi⟩
    rcases hsnd with h | ⟨n, h⟩
    · simpa [stepOp, h] using hnd
    · have hsl : List.Sublist
          ((stepOp s (.del caller rid)).store.map Product.id)
          (s.store.map Product.id) := by
        rw [stepOp, h]
        exact (List.eraseP_sublist s.store).map Product.id
      exact List.Nodup.sublist hsl hnd

/-- Along any sequence of requests, the owner recorded at an allocated id
never changes. -/
lemma runOps_ownership (ops : List Op) (s : BState) (i : Nat) (c : String)
    (hInv : s.Inv) (hi : i < s.nextId)
    (hOwn : ∀ q ∈ s.store, q.id = i → q.createdBy = c) :
    ∀ q ∈ (runOps s ops).store, q.id = i → q.createdBy = c := by
  induction ops generalizing s with
  | nil => exact hOwn
  | cons o os ih =>
    obtain ⟨h1, h2, h3⟩ := stepOp_preserves s o i c hInv hi hOwn
    exact ih (stepOp s o) h1 h2 h3

end Backend

namespace Backend

/-- A freshly appended document with an id no existing document carries is
found by its id. -/
lemma find?_id_append_new (store : List Product) (p : Product)
    (h : ∀ q ∈ store, q.id ≠ p.id) :
    (store ++ [p]).find? (fun q => q.id == p.id) = some p := by
  induction store with
  | nil => exact List.find?_cons_of_pos _ (by simp)
  | cons a rest ih =>
    have ha : ¬((a.id == p.id) = true) := by
      simp only [beq_iff_eq]
      exact h a (List.mem_cons_self a rest)
    rw [List.cons_append,
      List.find?_cons_of_neg (p := fun q => q.id == p.id) (a := a) _ ha]
    exact ih (fun q hq => h q (List.mem_cons_of_mem a hq))

end Backend

/-- C4: a successful owner update refreshes `updatedAt` to the request
time — at least the previous `updatedAt` whenever the clock has not run
backwards since the last write — and preserves `id`, `createdBy` and
`createdAt`; moreover along any sequence of create/update/delete requests
from a well-formed state, the `createdBy` recorded at a product's id never
changes. -/
theorem C4_update_keeps_identity (store : List Backend.Product)
    (caller : String) (p : Backend.Product) (inp : Backend.UpdateInput)
    (now : Nat) (hu : (store.map Backend.Product.id).Nodup) (hp : p ∈ store)
    (howner : p.createdBy = caller) (hclock : p.updatedAt ≤ now) :
    (Backend.putHandler store caller (.valid p.id) inp now =
      (.ok (Backend.applyUpdate inp now p),
        Backend.dbFindByIdAndUpdate store p.id inp now) ∧
     p.updatedAt ≤ (Backend.applyUpdate inp now p).updatedAt ∧
     (Backend.applyUpdate inp now p).createdBy = p.createdBy ∧
     (Backend.applyUpdate inp now p).id = p.id ∧
     (Backend.applyUpdate inp now p).createdAt = p.createdAt) ∧
    (∀ (s : Backend.BState) (r : Backend.Product) (ops : List Backend.Op),
      s.Inv → r ∈ s.store →
      ∀ t ∈ (Backend.runOps s ops).store, t.id = r.id →
        t.createdBy = r.createdBy) := by
  constructor
  · have hfind := Backend.find?_id_eq_some_of_nodup store p hu hp
    refine ⟨?_, hclock, rfl, rfl, rfl⟩
    simp [Backend.putHandler, Backend.dbFindById, hfind, howner]
  · intro s r ops hInv hr
    exact Backend.runOps_ownership ops s r.id r.createdBy hInv
      (hInv.1 r hr)
      (fun q hq hqi =>
        congrArg Backend.Product.createdBy
          (Backend.eq_of_mem_of_id_eq s.store q r hInv.2 hq hr hqi))

/-- Witness for C4: Alice updates her document; ownership also survives a
concrete request sequence. -/
theorem C4_witness :
    (Backend.putHandler [docA] "alice" (.valid docA.id) updIn 300 =
      (.ok (Backend.applyUpdate updIn 300 docA),
        Backend.dbFindByIdAndUpdate [docA] docA.id updIn 300) ∧
     docA.updatedAt ≤ (Backend.applyUpdate updIn 300 docA).updatedAt ∧
     (Backend.applyUpdate updIn 300 docA).createdBy = docA.createdBy ∧
     (Backend.applyUpdate updIn 300 docA).id = docA.id ∧
     (Backend.applyUpdate updIn 300 docA).createdAt = docA.createdAt) ∧
    (∀ t ∈ (Backend.runOps ⟨[docA], 2⟩
        [.update "alice" (.valid 1) updIn 400, .create "bob" crIn 500]).store,
      t.id = docA.id → t.createdBy = docA.createdBy) := by
  have h := C4_update_keeps_identity [docA] "alice" docA updIn 300
    (by decide) (by decide) (by decide) (by decide)
  exact ⟨h.1, h.2 ⟨[docA], 2⟩ docA
    [.update "alice" (.valid 1) updIn 400, .create "bob" crIn 500]
    ⟨by decide, by decide⟩ (by decide)⟩

/-- C5: creating a product from a request body and immediately fetching it
by the returned id yields exactly the stored record: its fields equal the
input, `createdBy` is the caller, the id is the generated one, and the two
timestamps coincide. -/
theorem C5_create_then_get (s : Backend.BState) (caller : String)
    (inp : Backend.CreateInput) (now : Nat) (hInv : s.Inv) :
    Backend.getByIdHandler (Backend.createHandler s caller inp now).2.store
        (.valid (Backend.createHandler s caller inp now).1.id) =
      .ok (Backend.createHandler s caller inp now).1 ∧
    (Backend.createHandler s caller inp now).1.name = inp.name ∧
    (Backend.createHandler s caller inp now).1.description = inp.description ∧
    (Backend.createHandler s caller inp now).1.price = inp.price ∧
    (Backend.createHandler s caller inp now).1.imageUrl = inp.imageUrl ∧
    (Backend.createHandler s caller inp now).1.category = inp.category ∧
    (Backend.createHandler s caller inp now).1.inStock = inp.inStock ∧
    (Backend.createHandler s caller inp now).1.createdBy = caller ∧
    (Backend.createHandler s caller inp now).1.createdAt =
      (Backend.createHandler s caller inp now).1.updatedAt := by
  have hfind := Backend.find?_id_append_new s.store
    (Backend.newProductDoc s caller inp now)
    (fun q hq => Nat.ne_of_lt (hInv.1 q hq))
  refine ⟨?_, rfl, rfl, rfl, rfl, rfl, rfl, rfl, rfl⟩
  simp [Backend.getByIdHandler, Backend.dbFindById, Backend.createHandler,
    hfind]

/-- Witness for C5 on a concrete two-document store. -/
theorem C5_witness :
    Backend.getByIdHandler
        (Backend.createHandler ⟨[docA, docB], 3⟩ "carol" crIn 600).2.store
        (.valid (Backend.createHandler ⟨[docA, docB], 3⟩ "carol" crIn 600).1.id) =
      .ok (Backend.createHandler ⟨[docA, docB], 3⟩ "carol" crIn 600).1 ∧
    (Backend.createHandler ⟨[docA, docB], 3⟩ "carol" crIn 600).1.name = crIn.name ∧
    (Backend.createHandler ⟨[docA, docB], 3⟩ "carol" crIn 600).1.description = crIn.description ∧
    (Backend.createHandler ⟨[docA, docB], 3⟩ "carol" crIn 600).1.price = crIn.price ∧
    (Backend.createHandler ⟨[docA, docB], 3⟩ "carol" crIn 600).1.imageUrl = crIn.imageUrl ∧
    (Backend.createHandler ⟨[docA, docB], 3⟩ "carol" crIn 600).1.category = crIn.category ∧
    (Backend.createHandler ⟨[docA, docB], 3⟩ "carol" crIn 600).1.inStock = crIn.inStock ∧
    (Backend.createHandler ⟨[docA, docB], 3⟩ "carol" crIn 600).1.createdBy = "carol" ∧
    (Backend.createHandler ⟨[docA, docB], 3⟩ "carol" crIn 600).1.createdAt =
      (Backend.createHandler ⟨[docA, docB], 3⟩ "carol" crIn 600).1.updatedAt :=
  C5_create_then_get ⟨[docA, docB], 3⟩ "carol" crIn 600 ⟨by decide, by decide⟩

namespace Frontend

/-- JavaScript `m || 0` is the identity on numbers (`0 || 0` is `0`). -/
lemma jsOrQ_zero (m : ℚ) : jsOrQ m 0 = m := by
  by_cases h : m = 0 <;> simp [jsOrQ, h]

/-- The filter pipeline computes exactly the one-pass filter by the
conjunction of the active criteria. -/
lemma applyFilters_eq (products : List MProduct) (f : FilterOptions) :
    applyFilters products f =
      products.filter (fun p => matchesActiveFilters f p) := by
  obtain ⟨cat, minP, maxP, minR, search⟩ := f
  by_cases hs : search = "" <;>
  rcases cat with _ | c <;>
  rcases minP with _ | mp <;>
  rcases maxP with _ | mx <;>
  rcases minR with _ | mr <;>
  all_goals (
    first
    | (by_cases hc : c = "" <;> by_cases hm : mx = 0 <;>
        simp [applyFilters, matchesActiveFilters, List.filter_filter,
          jsOrQ_zero, hs, hc, hm, Bool.and_assoc])
    | (by_cases hc : c = "" <;>
        simp [applyFilters, matchesActiveFilters, List.filter_filter,
          jsOrQ_zero, hs, hc, Bool.and_assoc])
    | (by_cases hm : mx = 0 <;>
        simp [applyFilters, matchesActiveFilters, List.filter_filter,
          jsOrQ_zero, hs, hm, Bool.and_assoc])
    | simp [applyFilters, matchesActiveFilters, List.filter_filter,
        jsOrQ_zero, hs, Bool.and_assoc])
  all_goals try (
    apply List.filter_congr
    intro a _
    simp only [Bool.and_comm, Bool.and_left_comm, Bool.and_assoc])

end Frontend

/-- C6 as stated is false on the code: with a set-but-zero `maxPrice` the
pipeline imposes no upper bound (JS `maxPrice || Infinity`), so a 100-priced
product survives a `maxPrice = 0` filter although the claimed inclusive
`[minPrice, maxPrice]` criteria reject it. -/
theorem C6_counterexample :
    Frontend.applyFilters [mpA] zeroMaxFilter = [mpA] ∧
    Frontend.claimCriteria zeroMaxFilter mpA = false := by decide

/-- C6 (amended): the derived filtered view consists exactly of the
products passing all active criteria conjunctively — category equal,
price within the bounds, rating at least the minimum, case-insensitive
substring of name or description — where a null bound imposes no
constraint and, through JS truthiness, a zero `maxPrice` and an
empty-string `category` also impose none.  The spec's concrete scenario
holds: among prices 100/500/1500 under `minPrice = 400, maxPrice = 1000`
only the 500-priced product remains, and adding the search term "xyz"
empties the result. -/
theorem C6_filter_semantics (products : List Frontend.MProduct)
    (f : Frontend.FilterOptions) :
    Frontend.applyFilters products f =
      products.filter (fun p => Frontend.matchesActiveFilters f p) ∧
    Frontend.applyFilters [mpA, mpB, mpC] priceFilter = [mpB] ∧
    Frontend.applyFilters [mpA, mpB, mpC] priceSearchFilter = [] :=
  ⟨Frontend.applyFilters_eq products f, by decide, by decide⟩

/-- C7: when the mock update or delete call rejects — as it does whenever
the requested id is absent from the service store — the client's local
product state is unchanged; the local list is rewritten only on the success
path of the handler. -/
theorem C7_failure_leaves_client_state
    (client svcStore : List Frontend.MProduct) (c : Frontend.MProduct)
    (d : Frontend.ProductFormData) (i rid now : String)
    (hc : ∀ y ∈ svcStore, y.id ≠ c.id) (hi : ∀ y ∈ svcStore, y.id ≠ i) :
    Frontend.handleProductSubmit client svcStore (some c) d rid now =
      (client, svcStore) ∧
    Frontend.confirmDelete client svcStore (some i) = (client, svcStore) := by
  constructor
  · simp [Frontend.handleProductSubmit,
      Frontend.svcUpdateProduct_eq_error svcStore c.id d now hc]
  · simp [Frontend.confirmDelete,
      Frontend.svcDeleteProduct_eq_error svcStore i hi]

/-- Witness for C7: updating or deleting a product absent from the mock
store leaves the client list untouched. -/
theorem C7_witness :
    Frontend.handleProductSubmit [mpA] [mpB] (some mpA) formD "77" "t" =
      ([mpA], [mpB]) ∧
    Frontend.confirmDelete [mpA] [mpB] (some "1") = ([mpA], [mpB]) :=
  C7_failure_leaves_client_state [mpA] [mpB] mpA formD "1" "77" "t"
    (by decide) (by decide)

/-- C10: filtering never reorders, duplicates or adds — the derived
filtered view is a subsequence of the base product list. -/
theorem C10_filtered_view_is_subsequence (products : List Frontend.MProduct)
    (f : Frontend.FilterOptions) :
    List.Sublist (Frontend.applyFilters products f) products := by
  rw [Frontend.applyFilters_eq]
  exact List.filter_sublist products
